import Mathlib

/-
Verification development for the Excel_Helper_Framework formula parser
(src/src/Models/parser.py).  The parser operates on Python dictionaries and
lists, so the embedding uses a JSON-like value type `PVal`.  The collaborator
classes (Reference, Function, Range, Expression, Constant) are imported by the
source file but their code is not part of the repository snapshot; those parts
are modelled from the specification and are marked as such in doc comments.
Recursive traversals are written with an explicit fuel argument (structural on
the fuel) so that every definition evaluates inside the kernel; entry points
derive their fuel from string lengths, which dominate the recursion depth.
Python exceptions inside traversals are modelled as the value `PVal.none`
(for tree builders) or `Option.none` (for string builders); construction errors
of the Parser class are modelled with an explicit error type.
-/

/-- Python-like dynamic value: None, bool, int, str, list, dict. -/
inductive PVal where
  | none
  | bool (b : Bool)
  | int (n : Int)
  | str (s : String)
  | list (xs : List PVal)
  | dict (es : List (String × PVal))
deriving Repr

/-- Single-quote character, written by code point to keep the source plain. -/
def sQuoteC : Char := Char.ofNat 39

/-- Single-quote as a one character string. -/
def sQuote : String := String.singleton sQuoteC

/-- Double-quote character, written by code point. -/
def dQuoteC : Char := Char.ofNat 34

/-- First-character test, standing in for str.startswith on a one character
pattern.  Written over the character list so that it reduces inside the
kernel (several core String functions are position-based and do not). -/
def startsWithChar (s : String) (c0 : Char) : Bool :=
  match s.data with
  | c :: _ => c == c0
  | [] => false

/-- Drop of a fixed number of leading characters, kernel-reducible. -/
def strDrop (s : String) (n : Nat) : String := String.mk (s.data.drop n)

/-- Whitespace trim on both ends, standing in for str.strip,
kernel-reducible. -/
def strTrim (s : String) : String :=
  String.mk (((s.data.dropWhile (fun c => c.isWhitespace)).reverse.dropWhile
    (fun c => c.isWhitespace)).reverse)

/-- Separator join, standing in for str.join, kernel-reducible. -/
def joinSep (sep : String) : List String → String
  | [] => ""
  | [x] => x
  | x :: y :: rest => x ++ sep ++ joinSep sep (y :: rest)

/-- Worker of the plain character split. -/
def splitOnCharAux (sep : Char) : List Char → List Char → List (List Char)
  | [], cur => [cur.reverse]
  | c :: rest, cur =>
    if c == sep then cur.reverse :: splitOnCharAux sep rest []
    else splitOnCharAux sep rest (c :: cur)

/-- Plain split at every occurrence of a character, kernel-reducible. -/
def splitOnChar (sep : Char) (cs : List Char) : List (List Char) :=
  splitOnCharAux sep cs []

/-- Decimal digits to a natural number, kernel-reducible. -/
def digitsToNatAux : List Char → Nat → Nat
  | [], acc => acc
  | c :: rest, acc => digitsToNatAux rest (acc * 10 + (c.toNat - 48))

/-- Decimal digits to a natural number. -/
def digitsToNat (cs : List Char) : Nat := digitsToNatAux cs 0

/-- Pattern test at the head of a character list. -/
def listStartsWith : List Char → List Char → Bool
  | _, [] => true
  | [], _ :: _ => false
  | c :: rest, p :: ps => c == p && listStartsWith rest ps

/-- Substring containment over character lists, standing in for the Python
operator in on strings. -/
def hasSubstrChars : List Char → List Char → Bool
  | [], pat => pat.isEmpty
  | c :: rest, pat => listStartsWith (c :: rest) pat || hasSubstrChars rest pat

/-- Dictionary membership test, mirroring the Python operator in on a dict. -/
def hasKeyE (es : List (String × PVal)) (k : String) : Bool :=
  es.any (fun e => e.1 == k)

/-- Dictionary lookup; a missing key yields PVal.none (Python would raise,
which the surrounding flows never do on the shapes the parser builds). -/
def lookupE (es : List (String × PVal)) (k : String) : PVal :=
  ((es.find? (fun e => e.1 == k)).map (fun e => e.2)).getD PVal.none

/-- Dictionary assignment: replace the value of an existing key in place,
append at the end otherwise, mirroring Python dict assignment order. -/
def setE : List (String × PVal) → String → PVal → List (String × PVal)
  | [], k, v => [(k, v)]
  | (k0, v0) :: rest, k, v =>
    if k0 == k then (k0, v) :: rest else (k0, v0) :: setE rest k v

/-- Python truthiness test (falsy values: None, False, 0, empty containers). -/
def isFalsy : PVal → Bool
  | PVal.none => true
  | PVal.bool b => !b
  | PVal.int n => n == 0
  | PVal.str s => s.length == 0
  | PVal.list xs => xs.isEmpty
  | PVal.dict es => es.isEmpty

/-- Rendering of a value inside an f-string, as the source uses in
json_to_string.  Container rendering is never exercised by the embedded
flows; boolean constants render as the spreadsheet keywords (modelled, the
Constant collaborator is not in the snapshot). -/
def pyStr : PVal → String
  | PVal.none => "None"
  | PVal.bool b => if b then "TRUE" else "FALSE"
  | PVal.int n => toString n
  | PVal.str s => s
  | PVal.list _ => ""
  | PVal.dict _ => ""

/-- Paren scan keeping the current depth; fails (Option.none) when a close
paren appears at depth zero. -/
def parenScan : List Char → Nat → Option Nat
  | [], d => some d
  | c :: rest, d =>
    if c == '(' then parenScan rest (d + 1)
    else if c == ')' then (if d == 0 then Option.none else parenScan rest (d - 1))
    else parenScan rest d

/-- Balanced parentheses: depth never negative and zero at the end. -/
def balancedChars (cs : List Char) : Bool := parenScan cs 0 == some 0

/-- Modelled from the spec: Expression.has_balanced_parentheses, the
precondition check used once at construction (section 4.6 of the spec). -/
def has_balanced_parentheses (s : String) : Bool := balancedChars s.data

/-- Split a character list at occurrences of a separator that sit at
parenthesis depth zero. -/
def splitTopLevelAux (sep : Char) : List Char → Nat → List Char → List (List Char)
  | [], _, cur => [cur.reverse]
  | c :: rest, d, cur =>
    if c == sep && d == 0 then cur.reverse :: splitTopLevelAux sep rest 0 []
    else if c == '(' then splitTopLevelAux sep rest (d + 1) (c :: cur)
    else if c == ')' then splitTopLevelAux sep rest (d - 1) (c :: cur)
    else splitTopLevelAux sep rest d (c :: cur)

/-- Top-level split at a separator character, parenthesis-depth aware. -/
def splitTopLevel (sep : Char) (cs : List Char) : List (List Char) :=
  splitTopLevelAux sep cs 0 []

/-- Modelled from the spec: Reference column-letter to number conversion,
bijective base-26 with A mapped to 1 (section 4.3 of the spec). -/
def lettersToNumber (s : String) : Nat :=
  s.data.foldl (fun acc c => acc * 26 + (c.toUpper.toNat - 64)) 0

/-- Fuel-driven worker for the number to column-letter conversion. -/
def natToLettersAux : Nat → Nat → String
  | 0, _ => ""
  | _ + 1, 0 => ""
  | fuel + 1, n + 1 =>
    natToLettersAux fuel (n / 26) ++ String.singleton (Char.ofNat (65 + n % 26))

/-- Modelled from the spec: Reference number to column-letter conversion
(A is 1, Z is 26, AA is 27). -/
def natToLetters (n : Nat) : String := natToLettersAux n n

/-- Column letters from a possibly non-positive column number; the spec only
fixes the conversion on positive integers, non-positive inputs give "". -/
def intToLetters (i : Int) : String :=
  if i ≤ 0 then "" else natToLetters i.toNat

/-- Modelled from the spec: sheet-name prefix of a reference string, a
quote-delimited optional prefix followed by an exclamation mark
(section 4.3 of the spec).  Returns the sheet value and the cell remainder. -/
def refSplitSheet (s : String) : Option (PVal × String) :=
  if startsWithChar s sQuoteC then
    match splitOnChar sQuoteC (s.data.drop 1) with
    | [sheet, rest] =>
      match rest with
      | b :: cell =>
        if b == '!' then some (PVal.str (String.mk sheet), String.mk cell) else Option.none
      | [] => Option.none
    | _ => Option.none
  else some (PVal.none, s)

/-- Modelled from the spec: the cell part of a reference is one-or-more
letters followed by one-or-more digits filling the whole remainder. -/
def refSplitCell (s : String) : Option (String × Nat) :=
  let letters := s.data.takeWhile Char.isAlpha
  let digits := s.data.drop letters.length
  if letters.isEmpty || digits.isEmpty || !(digits.all Char.isDigit) then
    Option.none
  else some (String.mk letters, digitsToNat digits)

/-- Modelled from the spec: full parse of a candidate reference string into
sheet name, column letters and row number. -/
def parseReferenceParts (s : String) : Option (PVal × String × Nat) :=
  (refSplitSheet s).bind (fun p => (refSplitCell p.2).map (fun c => (p.1, c.1, c.2)))

/-- Modelled from the spec: Reference.is_valid_reference. -/
def is_valid_reference (s : String) : Bool := (parseReferenceParts s).isSome

/-- Canonical string form of a reference from its fields; an absent (falsy)
sheet name yields the unqualified form, as json_to_string does in the source. -/
def refRenderFields (sheet colL row : PVal) : String :=
  if isFalsy sheet then pyStr colL ++ pyStr row
  else sQuote ++ pyStr sheet ++ sQuote ++ "!" ++ pyStr colL ++ pyStr row

/-- Canonical string form of a reference from typed fields. -/
def refRender (sheet : PVal) (colL : String) (row : Int) : String :=
  refRenderFields sheet (PVal.str colL) (PVal.int row)

/-- Components dictionary of a reference node, in the field order the
source demo block exhibits (column_letter, row_number, sheet_name,
column_number). -/
def refComponents (sheet : PVal) (colL : String) (row colN : Int) : PVal :=
  PVal.dict [("column_letter", PVal.str colL), ("row_number", PVal.int row),
             ("sheet_name", sheet), ("column_number", PVal.int colN)]

/-- Reference node dictionary from an arbitrary cached string and fields. -/
def refNodeRaw (cached : String) (sheet : PVal) (colL : String) (row colN : Int) : PVal :=
  PVal.dict [("reference", PVal.str cached), ("components", refComponents sheet colL row colN)]

/-- Modelled from the spec: Reference(s).to_dict() with the dictionary shape
shown in the source demo block. -/
def referenceToDict (s : String) : PVal :=
  match parseReferenceParts s with
  | some (sheet, letters, row) =>
    refNodeRaw (refRender sheet letters (Int.ofNat row)) sheet letters
      (Int.ofNat row) (Int.ofNat (lettersToNumber letters))
  | Option.none => PVal.none

/-- Modelled from the spec: Function.is_function_string, an identifier
followed by a parenthesis group spanning the whole trimmed substring
(section 4.2 of the spec). -/
def is_function_string (s : String) : Bool :=
  match s.data.findIdx? (fun c => c == '(') with
  | Option.none => false
  | some i =>
    let name := s.data.take i
    let rest := s.data.drop i
    decide (0 < i) && name.all (fun c => c.isAlpha || c.isDigit) &&
      (match name.head? with | some c => c.isAlpha | Option.none => false) &&
      (rest.getLast? == some ')') && balancedChars ((rest.drop 1).dropLast)

/-- Name part of a function string: the characters before the first paren. -/
def funcName (s : String) : String :=
  match s.data.findIdx? (fun c => c == '(') with
  | some i => String.mk (s.data.take i)
  | Option.none => ""

/-- Interior of the outer parenthesis pair of a function string. -/
def funcInterior (s : String) : List Char :=
  match s.data.findIdx? (fun c => c == '(') with
  | some i => ((s.data.drop i).drop 1).dropLast
  | Option.none => []

/-- Modelled from the spec: Function.parse_arguments splits the interior at
parenthesis-depth-zero commas, trims each argument, and an empty interior
yields zero arguments (section 4.2 of the spec). -/
def parse_arguments (s : String) : List String :=
  let inner := funcInterior s
  if (strTrim (String.mk inner)).length == 0 then []
  else (splitTopLevel ',' inner).map (fun cs => strTrim (String.mk cs))

/-- Modelled from the spec: Range.is_valid_range requires exactly one
top-level colon separating two independently valid references. -/
def is_valid_range (s : String) : Bool :=
  match splitTopLevel ':' s.data with
  | [a, b] => is_valid_reference (String.mk a) && is_valid_reference (String.mk b)
  | _ => false

/-- Modelled from the spec: Range(s).to_dict(); the components hold the two
endpoint strings, which json_to_string interpolates directly. -/
def rangeToDict (s : String) : PVal :=
  match splitTopLevel ':' s.data with
  | [a, b] =>
    PVal.dict [("range", PVal.str (String.mk a ++ ":" ++ String.mk b)),
               ("components", PVal.dict [("start", PVal.str (String.mk a)),
                                         ("end", PVal.str (String.mk b))])]
  | _ => PVal.none

/-- Digit-string test. -/
def isDigits (s : String) : Bool := s.length != 0 && s.data.all Char.isDigit

/-- Decimal literal test: digits, a dot, digits. -/
def isDecimal (s : String) : Bool :=
  match splitOnChar '.' s.data with
  | [a, b] => isDigits (String.mk a) && isDigits (String.mk b)
  | _ => false

/-- Quoted text literal test: at least two characters, double quotes at both
ends. -/
def isQuoted (s : String) : Bool :=
  decide (2 ≤ s.length) && (s.data.head? == some dQuoteC) && (s.data.getLast? == some dQuoteC)

/-- Modelled from the spec: Constant.is_valid_constant accepts numeric
literals (integer or decimal), quoted text literals and boolean keywords
(section 4.5 of the spec). -/
def is_valid_constant (s : String) : Bool :=
  isDigits s || isDecimal s || isQuoted s || s == "TRUE" || s == "FALSE"

/-- Modelled from the spec: the typed value of a constant literal.  Integers
become ints, boolean keywords become bools, decimal and quoted literals keep
their literal text, preserving the numeric versus string-shaped distinction. -/
def constValue (s : String) : PVal :=
  if isDigits s then PVal.int (Int.ofNat (digitsToNat s.data))
  else if s == "TRUE" then PVal.bool true
  else if s == "FALSE" then PVal.bool false
  else PVal.str s

/-- Constant node dictionary, keyed by the constant tag as json_to_string
reads it. -/
def constantToDict (s : String) : PVal :=
  PVal.dict [("constant", constValue s)]

/-- Modelled from the spec: the fixed single-character operator set of the
Expression splitter (arithmetic and comparison operators). -/
def operators : List Char := ['+', '-', '*', '/', '^', '&', '<', '>', '=']

/-- Scan for an operator character at parenthesis depth zero outside a
double-quoted literal. -/
def hasTopLevelOp : List Char → Nat → Bool → Bool
  | [], _, _ => false
  | c :: rest, d, q =>
    if c == dQuoteC then hasTopLevelOp rest d (!q)
    else if q then hasTopLevelOp rest d q
    else if c == '(' then hasTopLevelOp rest (d + 1) q
    else if c == ')' then hasTopLevelOp rest (d - 1) q
    else if d == 0 && operators.contains c then true
    else hasTopLevelOp rest d q

/-- Test whether a character list is one parenthesis group spanning the
whole list. -/
def isParenGroup (cs : List Char) : Bool :=
  match cs with
  | c :: rest => c == '(' && rest.getLast? == some ')' && balancedChars rest.dropLast
  | [] => false

/-- Modelled from the spec: Expression.is_valid_expression, a substring that
contains a top-level operator (the degenerate single operator character is
left to the later operator rule of parse_expression) or is one parenthesis
group (section 4.6 of the spec). -/
def is_valid_expression (s : String) : Bool :=
  (hasTopLevelOp s.data 0 false && decide (2 ≤ s.length)) || isParenGroup s.data

/-- Worker of the expression splitter: walk the characters, cut at depth-zero
operator characters outside quoted literals, emit trimmed operand substrings
interleaved with single-character operator tokens. -/
def splitOpsAux : List Char → Nat → Bool → List Char → List String → List String
  | [], _, _, cur, out =>
    let t := strTrim (String.mk cur.reverse)
    if t.length == 0 then out.reverse else (t :: out).reverse
  | c :: rest, d, q, cur, out =>
    if c == dQuoteC then splitOpsAux rest d (!q) (c :: cur) out
    else if q then splitOpsAux rest d q (c :: cur) out
    else if c == '(' then splitOpsAux rest (d + 1) q (c :: cur) out
    else if c == ')' then splitOpsAux rest (d - 1) q (c :: cur) out
    else if d == 0 && operators.contains c then
      let t := strTrim (String.mk cur.reverse)
      let out1 := if t.length == 0 then out else t :: out
      splitOpsAux rest 0 q [] (String.singleton c :: out1)
    else splitOpsAux rest d q (c :: cur) out

/-- Modelled from the spec: Expression(s).expression, the alternating
operand/operator parts after stripping one layer of enclosing parentheses
(section 4.6 of the spec). -/
def exprParts (s : String) : List String :=
  let cs := if isParenGroup s.data then (s.data.drop 1).dropLast else s.data
  splitOpsAux cs 0 false [] []

/-- Embedding of Parser.parse_expression (source lines 27-75).  The fuel is
structural and decremented once per recursion level; every recursive call in
the source strictly shrinks its argument, so string-length fuel at the entry
point is sufficient.  Python implicitly returns None when no rule matches and
when the input is neither a dict nor a str (in particular for lists, which the
expression re-parse branch passes). -/
def parseExpressionF : Nat → PVal → PVal
  | 0, _ => PVal.none
  | fuel + 1, PVal.dict es =>
    if hasKeyE es ("function") then
      match lookupE es ("components") with
      | PVal.dict fs =>
        match lookupE fs ("arguments") with
        | PVal.list args =>
          PVal.dict (setE es ("components") (PVal.dict (setE fs ("arguments")
            (PVal.list (args.map (fun a => parseExpressionF fuel a))))))
        | _ => PVal.none
      | _ => PVal.none
    else if hasKeyE es ("expression") then parseExpressionF fuel (lookupE es ("components"))
    else PVal.dict es
  | fuel + 1, PVal.str s0 =>
    let s := strTrim s0
    if is_function_string s then
      PVal.dict [("function", PVal.str (funcName s ++ "(" ++
                   joinSep (", ") (parse_arguments s) ++ ")")),
                 ("components", PVal.dict [("name", PVal.str (funcName s)),
                   ("arguments", PVal.list ((parse_arguments s).map
                      (fun a => parseExpressionF fuel (PVal.str a))))])]
    else if is_valid_range s then rangeToDict s
    else if is_valid_reference s then referenceToDict s
    else if is_valid_constant s then constantToDict s
    else if is_valid_expression s then
      PVal.dict [("expression", PVal.str s),
                 ("components", PVal.list ((exprParts s).map
                    (fun part => parseExpressionF fuel (PVal.str part))))]
    else if (operators.any (fun c => s.data.contains c)) && s.length == 1 then
      PVal.dict [("operator", PVal.str s)]
    else PVal.none
  | _ + 1, _ => PVal.none

/-- Entry point of parse_expression on a raw string; the recursion depth is
bounded by the string length, see parseExpressionF. -/
def parse_expression_of_string (s : String) : PVal :=
  parseExpressionF (s.length + 1) (PVal.str s)

/-- Option-valued map used for joining rendered child strings; a None child
makes the whole join fail, as the join in the source would raise. -/
def optMapStr (f : PVal → Option String) : List PVal → Option (List String)
  | [] => some []
  | x :: xs => (f x).bind (fun r => (optMapStr f xs).map (fun rs => r :: rs))

/-- Embedding of Parser.json_to_string (source lines 85-121), dispatching on
the kind tag keys in source order.  Shapes on which the source would raise,
and the implicit fall-through, both yield Option.none. -/
def json_to_stringF : Nat → PVal → Option String
  | 0, _ => Option.none
  | fuel + 1, PVal.dict es =>
    if hasKeyE es ("function") then
      match lookupE es ("components") with
      | PVal.dict fs =>
        match lookupE fs ("arguments") with
        | PVal.list args =>
          (optMapStr (fun a => json_to_stringF fuel a) args).map
            (fun ss => pyStr (lookupE fs ("name")) ++ "(" ++
              joinSep (", ") ss ++ ")")
        | _ => Option.none
      | _ => Option.none
    else if hasKeyE es ("reference") then
      match lookupE es ("components") with
      | PVal.dict cs =>
        some (refRenderFields (lookupE cs ("sheet_name")) (lookupE cs ("column_letter"))
          (lookupE cs ("row_number")))
      | _ => Option.none
    else if hasKeyE es ("range") then
      match lookupE es ("components") with
      | PVal.dict cs => some (pyStr (lookupE cs ("start")) ++ ":" ++ pyStr (lookupE cs ("end")))
      | _ => Option.none
    else if hasKeyE es ("expression") then
      match lookupE es ("components") with
      | PVal.list parts =>
        (optMapStr (fun a => json_to_stringF fuel a) parts).map
          (fun ss => "(" ++ joinSep (" ") ss ++ ")")
      | _ => Option.none
    else if hasKeyE es ("operator") then some (pyStr (lookupE es ("operator")))
    else if hasKeyE es ("constant") then some (pyStr (lookupE es ("constant")))
    else Option.none
  | _ + 1, _ => Option.none

/-- Error raised by the Parser constructor; the source raises the single
Python kind ValueError with one of two fixed messages. -/
inductive FormulaError where
  | malformedFormula (msg : String)

/-- Message of the missing leading equals sign error, exactly as in the
source (the quote characters are built from their code point). -/
def msgMissingEq : String :=
  "Formula must start with an " ++ sQuote ++ "=" ++ sQuote ++ " sign."

/-- Message of the unbalanced parentheses error, exactly as in the source. -/
def msgUnbalanced : String := "Unbalanced parentheses in formula."

/-- State of a Parser instance: the stored formula text without the equals
sign, the full text, and the attribute written only by translate (absent,
modelled as Option.none, until translate runs). -/
structure Parser where
  formula : String
  full_formula : String
  parsed_formula : Option PVal

/-- Embedding of the Parser constructor (source lines 11-17): the leading
equals check runs first, then the balance check; on success only the two
strings are stored and no node is built. -/
def Parser.init (formula_str : String) : Except FormulaError Parser :=
  if !(startsWithChar formula_str '=') then
    Except.error (FormulaError.malformedFormula msgMissingEq)
  else if !(has_balanced_parentheses formula_str) then
    Except.error (FormulaError.malformedFormula msgUnbalanced)
  else Except.ok ⟨strDrop formula_str 1, formula_str, Option.none⟩

/-- Embedding of Parser.parse: re-parses the stored formula text on every
call. -/
def Parser.parse (p : Parser) : PVal := parse_expression_of_string p.formula

/-- Embedding of Parser.to_dict, an alias of parse. -/
def Parser.to_dict (p : Parser) : PVal := p.parse

/-- Embedding of the reconstructed_formula property: the equals sign plus the
reconstruction of a fresh parse.  The recursion depth of the parse tree is
bounded by the formula length, which feeds the fuel. -/
def Parser.reconstructed_formula (p : Parser) : Option String :=
  (json_to_stringF (p.formula.length + 1) p.parse).map (fun r => "=" ++ r)

/-- Fuel-driven dump of a value, standing in for json.dumps in the __str__
method.  Modelled: only its deterministic dependence on the parse result
matters for the claims, not the exact JSON text. -/
def pvalDumpF : Nat → PVal → String
  | 0, _ => ""
  | _ + 1, PVal.none => "null"
  | _ + 1, PVal.bool b => if b then "true" else "false"
  | _ + 1, PVal.int n => toString n
  | _ + 1, PVal.str s => s
  | fuel + 1, PVal.list xs =>
    "[" ++ joinSep (", ") (xs.map (fun x => pvalDumpF fuel x)) ++ "]"
  | fuel + 1, PVal.dict es =>
    "[" ++ joinSep (", ") (es.map (fun e => e.1 ++ ": " ++ pvalDumpF fuel e.2)) ++ "]"

/-- Embedding of Parser.__str__: a rendering of a fresh parse. -/
def Parser.strRepr (p : Parser) : String :=
  pvalDumpF (p.formula.length + 1) p.parse

/-- Acceptable kind tags of the diagnostic key counter (source lines
135-137). -/
def acceptableKeys : List String :=
  ["function", "arguments", "expression", "range", "reference", "constant", "operator"]

/-- Source behaviour of the label parameter: a truthy label restricts the
acceptable set to that single label, a falsy label (None or the empty
string) keeps the full set. -/
def labelKeys (label : Option String) : List String :=
  match label with
  | some l => if l == "" then acceptableKeys else [l]
  | Option.none => acceptableKeys

/-- Increment of a counting dictionary, preserving insertion order as Python
dict assignment does. -/
def incCount : List (String × Nat) → String → List (String × Nat)
  | [], k => [(k, 1)]
  | (k0, n) :: t, k => if k0 == k then (k0, n + 1) :: t else (k0, n) :: incCount t k

/-- Traversal position of the key counter: the entries of a dictionary or
the elements of a list. -/
inductive CKIn where
  | entries (es : List (String × PVal))
  | elems (xs : List PVal)

/-- Embedding of the count_keys worker of get_all_keys_with_counts (source
lines 144-156): count acceptable keys, recurse into dictionary values and
into dictionary elements of list values (non-dictionary list elements are
skipped, as in the source).  One fuel unit per traversal step. -/
def countKeysF (acc : List String) : Nat → CKIn → List (String × Nat) → List (String × Nat)
  | 0, _, kc => kc
  | _ + 1, CKIn.entries [], kc => kc
  | fuel + 1, CKIn.entries ((k, v) :: rest), kc =>
    let kc1 := if acc.contains k then incCount kc k else kc
    let kc2 :=
      match v with
      | PVal.dict es2 => countKeysF acc fuel (CKIn.entries es2) kc1
      | PVal.list xs => countKeysF acc fuel (CKIn.elems xs) kc1
      | _ => kc1
    countKeysF acc fuel (CKIn.entries rest) kc2
  | _ + 1, CKIn.elems [], kc => kc
  | fuel + 1, CKIn.elems (x :: xs), kc =>
    let kc1 :=
      match x with
      | PVal.dict es2 => countKeysF acc fuel (CKIn.entries es2) kc
      | _ => kc
    countKeysF acc fuel (CKIn.elems xs) kc1

/-- Embedding of Parser.get_all_keys_with_counts.  The fuel argument is
explicit (one unit per traversal step); every fuel at least the number of
nested entries and elements gives the full count, which the relational
theorem states for every fuel. -/
def get_all_keys_with_counts (fuel : Nat) (d : PVal) (label : Option String) : List (String × Nat) :=
  match d with
  | PVal.dict es => countKeysF (labelKeys label) fuel (CKIn.entries es) []
  | _ => []

/-- Count lookup in the result dictionary, zero for an absent key. -/
def lookupCount : List (String × Nat) → String → Nat
  | [], _ => 0
  | (k0, n) :: rest, k => if k0 == k then n else lookupCount rest k

/-- Specification-side counter: the number of occurrences of one key among
the nested dictionary entries reachable by the same traversal as
count_keys, written as a direct recursion without an accumulator. -/
def occF (k : String) : Nat → CKIn → Nat
  | 0, _ => 0
  | _ + 1, CKIn.entries [] => 0
  | fuel + 1, CKIn.entries ((k0, v) :: rest) =>
    (if k0 == k then 1 else 0) +
    (match v with
     | PVal.dict es2 => occF k fuel (CKIn.entries es2)
     | PVal.list xs => occF k fuel (CKIn.elems xs)
     | _ => 0) + occF k fuel (CKIn.entries rest)
  | _ + 1, CKIn.elems [] => 0
  | fuel + 1, CKIn.elems (x :: xs) =>
    (match x with
     | PVal.dict es2 => occF k fuel (CKIn.entries es2)
     | _ => 0) + occF k fuel (CKIn.elems xs)

/-- Membership test of the Python operator in applied to the kind maps of
translate: key membership for dicts, substring containment for strings,
element equality for lists. -/
def containsTag : PVal → String → Bool
  | PVal.dict es, k => hasKeyE es k
  | PVal.str s, k => hasSubstrChars s.data k.data
  | PVal.list xs, k => xs.any (fun x => match x with | PVal.str s => s == k | _ => false)
  | _, _ => false

/-- Modelled from the spec: the canonical cached string of an already-built
node, read off its tag entry (every node kind caches its string form). -/
def cachedOf (v : PVal) : String :=
  match v with
  | PVal.dict es =>
    if hasKeyE es ("function") then pyStr (lookupE es ("function"))
    else if hasKeyE es ("reference") then pyStr (lookupE es ("reference"))
    else if hasKeyE es ("range") then pyStr (lookupE es ("range"))
    else if hasKeyE es ("expression") then pyStr (lookupE es ("expression"))
    else if hasKeyE es ("operator") then pyStr (lookupE es ("operator"))
    else if hasKeyE es ("constant") then pyStr (lookupE es ("constant"))
    else ""
  | v2 => pyStr v2

/-- Integer field of a components dictionary (zero default on shapes the
source would raise on; unexercised by well-formed nodes). -/
def getIntField (cs : PVal) (k : String) : Int :=
  match cs with
  | PVal.dict es => match lookupE es k with | PVal.int n => n | _ => 0
  | _ => 0

/-- Field of a components dictionary. -/
def getField (cs : PVal) (k : String) : PVal :=
  match cs with
  | PVal.dict es => lookupE es k
  | _ => PVal.none

/-- Embedding of update_reference inside translate (source lines 174-181)
composed with the Reference round trip the source performs: both shift
setters update the number and re-derive the letters together (Reference
contract, section 4.3 of the spec), the sheet name is carried over, and the
cached string is regenerated from the updated fields.  Returns the new
cached string and the new components. -/
def update_reference (dc dr : Int) (comps : PVal) : PVal × PVal :=
  let colN := getIntField comps ("column_number") + dc
  let row := getIntField comps ("row_number") + dr
  let sheet := getField comps ("sheet_name")
  let letter := intToLetters colN
  (PVal.str (refRender sheet letter row), refComponents sheet letter row colN)

/-- Modelled from the spec: Expression.from_dict applied to a cached string
(the shape reconstruct_expression passes); cached form kept, components
re-split into raw part strings.  Not exercised by any claim. -/
def exprRecon (es : List (String × PVal)) (v : PVal) : List (String × PVal) :=
  let s := pyStr v
  setE (setE es ("expression") (PVal.str s)) ("components")
    (PVal.list ((exprParts s).map (fun part => PVal.str part)))

/-- Modelled from the spec: Range.from_dict applied to a cached string.  Not
exercised by any claim. -/
def rangeRecon (es : List (String × PVal)) (v : PVal) : List (String × PVal) :=
  let s := pyStr v
  match splitTopLevel ':' s.data with
  | [a, b] =>
    setE (setE es ("range") (PVal.str s)) ("components")
      (PVal.dict [("start", PVal.str (String.mk a)), ("end", PVal.str (String.mk b))])
  | _ => setE es ("range") (PVal.str s)

/-- Modelled from the spec: Reference.from_dict applied to a cached string.
Unreachable in translate (a dictionary with a reference key returns early). -/
def refRecon (es : List (String × PVal)) (v : PVal) : List (String × PVal) :=
  let s := pyStr v
  match parseReferenceParts s with
  | some (sheet, letters, row) =>
    setE (setE es ("reference") (PVal.str (refRender sheet letters (Int.ofNat row))))
      ("components") (refComponents sheet letters (Int.ofNat row) (Int.ofNat (lettersToNumber letters)))
  | Option.none => es

/-- Modelled from the spec: Function.from_dict on the whole node dictionary
followed by str and to_dict, as translate performs: the cached string is
re-joined from the current argument cached strings, the components are kept. -/
def funcRecon (es : List (String × PVal)) : List (String × PVal) :=
  match lookupE es ("components") with
  | PVal.dict fs =>
    match lookupE fs ("arguments") with
    | PVal.list args =>
      let cachedStr := pyStr (lookupE fs ("name")) ++ "(" ++
        joinSep (", ") (args.map cachedOf) ++ ")"
      setE (setE es ("function") (PVal.str cachedStr)) ("components") (PVal.dict fs)
    | _ => es
  | _ => es

/-- Traversal position of recurse_translate: a value, the pending original
keys of a dictionary whose entries are threaded through (Python iterates a
live view, reading the current value of each original key), or the elements
of a list. -/
inductive RTIn where
  | val (v : PVal)
  | keys (ks : List String) (es : List (String × PVal))
  | elems (xs : List PVal)

/-- Embedding of recurse_translate inside translate (source lines 192-225):
operator and constant data return unchanged first; a dictionary with a
reference key is rebuilt with shifted coordinates and a regenerated cached
string; other dictionaries are walked key by key in insertion order,
recursing into dictionary or list values and applying the reconstruction
classes to recognised scalar-valued tag keys; lists map the traversal over
their elements; every other value returns unchanged.  One fuel unit per
step. -/
def rtF (dc dr : Int) : Nat → RTIn → PVal
  | 0, _ => PVal.none
  | fuel + 1, RTIn.val data =>
    if containsTag data ("operator") || containsTag data ("constant") then data
    else
      match data with
      | PVal.dict es =>
        if hasKeyE es ("reference") then
          let r := update_reference dc dr (lookupE es ("components"))
          PVal.dict (setE (setE es ("reference") r.1) ("components") r.2)
        else rtF dc dr fuel (RTIn.keys (es.map (fun e => e.1)) es)
      | PVal.list xs => rtF dc dr fuel (RTIn.elems xs)
      | d => d
  | _ + 1, RTIn.keys [] es => PVal.dict es
  | fuel + 1, RTIn.keys (k :: ks) es =>
    let v := lookupE es k
    let es2 :=
      match v with
      | PVal.dict _ => setE es k (rtF dc dr fuel (RTIn.val v))
      | PVal.list _ => setE es k (rtF dc dr fuel (RTIn.val v))
      | _ =>
        if k == "expression" then exprRecon es v
        else if k == "range" then rangeRecon es v
        else if k == "reference" then refRecon es v
        else if k == "function" then funcRecon es
        else es
    rtF dc dr fuel (RTIn.keys ks es2)
  | _ + 1, RTIn.elems [] => PVal.list []
  | fuel + 1, RTIn.elems (x :: xs) =>
    match rtF dc dr fuel (RTIn.elems xs) with
    | PVal.list ys => PVal.list (rtF dc dr fuel (RTIn.val x) :: ys)
    | _ => PVal.none

/-- Embedding of Parser.translate (source lines 162-229): the shifts are the
column and row number differences of the two reference parses, the stored
formula strings are untouched, and the translated tree is stored in the
parsed_formula attribute of the returned instance.  Invalid cell names make
the source raise inside the Reference constructor before any state changes;
that path is modelled as returning the instance unchanged.  The traversal
fuel is proportional to the formula length, which bounds the number of
traversal steps of the parse tree. -/
def Parser.translate (p : Parser) (from_cell to_cell : String) : Parser :=
  match parseReferenceParts from_cell, parseReferenceParts to_cell with
  | some f, some t =>
    let col_shift : Int := Int.ofNat (lettersToNumber t.2.1) - Int.ofNat (lettersToNumber f.2.1)
    let row_shift : Int := Int.ofNat t.2.2 - Int.ofNat f.2.2
    { p with parsed_formula := some (rtF col_shift row_shift (8 * p.formula.length + 16) (RTIn.val p.parse)) }
  | _, _ => p

/-- Column number of a cell name through the Reference parse, as translate
computes its shifts. -/
def refColNumberOf (s : String) : Option Int :=
  (parseReferenceParts s).map (fun r => Int.ofNat (lettersToNumber r.2.1))

/-- Row number of a cell name through the Reference parse. -/
def refRowNumberOf (s : String) : Option Int :=
  (parseReferenceParts s).map (fun r => Int.ofNat r.2.2)

/-- Value lookup on a node dictionary, used by the claim statements. -/
def PVal.getKey : PVal → String → Option PVal
  | PVal.dict es, k => (es.find? (fun e => e.1 == k)).map (fun e => e.2)
  | _, _ => Option.none

/-- First key of a node dictionary: the kind tag of every node the parser
builds. -/
def tagOf : PVal → Option String
  | PVal.dict ((k, _) :: _) => some k
  | _ => Option.none

/-- Parenthesis removal, as the source demo block does with str.replace. -/
def removeParens (s : String) : String :=
  String.mk (s.data.filter (fun c => !(c == '(') && !(c == ')')))

/-- Expression node built by parsing the text A1 + B2, spelled out for the
re-classification claims. -/
def exprNodeC6 : PVal :=
  PVal.dict [("expression", PVal.str "A1 + B2"),
             ("components", PVal.list
               [refNodeRaw ("A1") PVal.none ("A") 1 1,
                PVal.dict [("operator", PVal.str "+")],
                refNodeRaw ("B2") PVal.none ("B") 2 2])]

/-- FunctionCall node built by parsing the text SUM(A1, B2), spelled out for
the re-classification claims. -/
def funcNodeC6 : PVal :=
  PVal.dict [("function", PVal.str "SUM(A1, B2)"),
             ("components", PVal.dict
               [("name", PVal.str "SUM"),
                ("arguments", PVal.list
                  [refNodeRaw ("A1") PVal.none ("A") 1 1,
                   refNodeRaw ("B2") PVal.none ("B") 2 2])])]

/-- C1: translating the parser of =SUM(A1, B2) from A1 to C3 uses the column
and row number differences of the two reference parses (here 3 - 1 = 2 in
both coordinates) and yields a FunctionCall node whose arguments are the
references C3 and D4, their columns and rows shifted by those amounts and
their cached strings regenerated to match. -/
theorem C1_translate_example :
    ∃ p, Parser.init ("=SUM(A1, B2)") = Except.ok p ∧
      refColNumberOf ("A1") = some 1 ∧ refRowNumberOf ("A1") = some 1 ∧
      refColNumberOf ("C3") = some 3 ∧ refRowNumberOf ("C3") = some 3 ∧
      (p.translate ("A1") ("C3")).parsed_formula.map tagOf = some (some ("function")) ∧
      ((p.translate ("A1") ("C3")).parsed_formula.bind
          (fun t => (t.getKey ("components")).bind (fun c => c.getKey ("arguments"))))
        = some (PVal.list
            [refNodeRaw ("C3") PVal.none ("C") 3 3,
             refNodeRaw ("D4") PVal.none ("D") 4 4]) := by
  refine ⟨⟨"SUM(A1, B2)", "=SUM(A1, B2)", Option.none⟩, rfl, rfl, rfl, rfl, rfl, ?_, ?_⟩ <;> rfl

/-- C2 counterexample: the formula =SUM(A1,B2) is accepted by the
constructor, but its reconstruction re-joins the arguments with a comma and
a space, so the parenthesis-stripped forms differ; the claimed round trip
does not hold for every accepted formula. -/
theorem C2_roundtrip_counterexample :
    ∃ p, Parser.init ("=SUM(A1,B2)") = Except.ok p ∧
      p.reconstructed_formula = some ("=SUM(A1, B2)") ∧
      removeParens ("=SUM(A1,B2)") ≠ removeParens ("=SUM(A1, B2)") := by
  refine ⟨⟨"SUM(A1,B2)", "=SUM(A1,B2)", Option.none⟩, rfl, rfl, ?_⟩
  decide

/-- C2 as amended: for the example formula =SUM(A1, MAX(B1, C1 + D1)), whose
spacing already matches the canonical joins of the reconstruction, removing
all parentheses from the formula and from the reconstructed formula yields
identical strings. -/
theorem C2_roundtrip_example :
    ∃ p, Parser.init ("=SUM(A1, MAX(B1, C1 + D1))") = Except.ok p ∧
      p.reconstructed_formula = some ("=SUM(A1, MAX(B1, (C1 + D1)))") ∧
      removeParens ("=SUM(A1, MAX(B1, (C1 + D1)))")
        = removeParens ("=SUM(A1, MAX(B1, C1 + D1))") := by
  refine ⟨⟨"SUM(A1, MAX(B1, C1 + D1))", "=SUM(A1, MAX(B1, C1 + D1))", Option.none⟩, rfl, rfl, ?_⟩
  decide

/-- C9: during translation, operator and constant nodes pass through the
traversal entirely unchanged, and a reference node keeps its sheet name
while its column number, row number, column letters (re-derived from the
shifted number) and cached string are all rebuilt from the shifts. -/
theorem C9_translate_node_frame (dc dr : Int) (fuel : Nat) (sym : String) (cv : PVal)
    (cached : String) (sheet : PVal) (colL : String) (row colN : Int) :
    (rtF dc dr (fuel + 1) (RTIn.val (PVal.dict [("operator", PVal.str sym)]))
       = PVal.dict [("operator", PVal.str sym)]) ∧
    (rtF dc dr (fuel + 1) (RTIn.val (PVal.dict [("constant", cv)]))
       = PVal.dict [("constant", cv)]) ∧
    (rtF dc dr (fuel + 1) (RTIn.val (refNodeRaw cached sheet colL row colN))
       = refNodeRaw (refRender sheet (intToLetters (colN + dc)) (row + dr)) sheet
           (intToLetters (colN + dc)) (row + dr) (colN + dc)) := by
  refine ⟨rfl, rfl, rfl⟩

/-- C3: translate writes only the parsed_formula attribute: the stored
formula strings are untouched, so parse, to_dict, reconstructed_formula and
the string rendering, which all re-parse the stored text on each call, give
identical results before and after any translate call, and the translated
instance differs from the original at most in parsed_formula. -/
theorem C3_translate_frame (p : Parser) (a b : String) :
    ((p.translate a b).formula = p.formula) ∧
    ((p.translate a b).full_formula = p.full_formula) ∧
    ((p.translate a b).parse = p.parse) ∧
    ((p.translate a b).to_dict = p.to_dict) ∧
    ((p.translate a b).reconstructed_formula = p.reconstructed_formula) ∧
    ((p.translate a b).strRepr = p.strRepr) ∧
    (p.translate a b = { p with parsed_formula := (p.translate a b).parsed_formula }) := by
  unfold Parser.translate
  cases ha : parseReferenceParts a <;> cases hb : parseReferenceParts b <;>
    simp [Parser.parse, Parser.to_dict, Parser.reconstructed_formula, Parser.strRepr]

/-- C6: the code slip in re-classification.  Parsing the text A1 + B2 builds
the expression node exprNodeC6; re-classifying that node hands its components
list (not a dictionary or string) back to parse_expression, which therefore
falls through both type branches and returns None instead of an equal node.
Re-classifying a FunctionCall node whose arguments are references does return
it unchanged.  The offsets over an arbitrary fuel show the results are not
fuel artifacts. -/
theorem C6_reclassify_expression_bug (fuel : Nat) :
    parse_expression_of_string ("A1 + B2") = exprNodeC6 ∧
    parseExpressionF (fuel + 2) exprNodeC6 = PVal.none ∧
    parse_expression_of_string ("SUM(A1, B2)") = funcNodeC6 ∧
    parseExpressionF (fuel + 2) funcNodeC6 = funcNodeC6 := by
  have h2 : ∀ m : Nat, parseExpressionF (m + 1 + 1) exprNodeC6 = PVal.none := by
    intro m
    simp [parseExpressionF, exprNodeC6, hasKeyE, lookupE]
  have h4 : ∀ m : Nat, parseExpressionF (m + 1 + 1) funcNodeC6 = funcNodeC6 := by
    intro m
    simp [parseExpressionF, funcNodeC6, hasKeyE, lookupE, setE, refNodeRaw, refComponents]
  exact ⟨rfl, h2 fuel, rfl, h4 fuel⟩

/-- C5 counterexample: both malformed examples fail as claimed, but the
error carries a fixed descriptive message that does not contain the
offending formula text, so the claim that the error carries the offending
text is false on these inputs. -/
theorem C5_error_text_counterexample :
    Parser.init ("SUM(A1,B2)") = Except.error (FormulaError.malformedFormula msgMissingEq) ∧
    hasSubstrChars msgMissingEq.data ("SUM(A1,B2)").data = false ∧
    Parser.init ("=SUM(A1,B2") = Except.error (FormulaError.malformedFormula msgUnbalanced) ∧
    hasSubstrChars msgUnbalanced.data ("=SUM(A1,B2").data = false := by
  exact ⟨rfl, by decide, rfl, by decide⟩

/-- C5 as amended: construction succeeds exactly when the formula starts
with the equals sign and has balanced parentheses (hence fails in exactly
those two cases, with a single error kind carrying a fixed message), and a
successful construction stores only the two formula strings with no parsed
node. -/
theorem C5_construction_cases (s : String) :
    ((∃ p, Parser.init s = Except.ok p) ↔
      (startsWithChar s '=' = true ∧ has_balanced_parentheses s = true)) ∧
    (∀ p, Parser.init s = Except.ok p →
      p = ⟨strDrop s 1, s, Option.none⟩) := by
  unfold Parser.init
  by_cases h1 : startsWithChar s '=' = true <;>
    by_cases h2 : has_balanced_parentheses s = true <;>
      simp [h1, h2]

/-- C5 witness: the amended construction theorem applied at the concrete
formula =A1, discharging both hypotheses there. -/
theorem C5_construction_cases_witness :
    (∃ p, Parser.init ("=A1") = Except.ok p) ∧
    ((⟨strDrop ("=A1") 1, "=A1", Option.none⟩ : Parser)
      = ⟨strDrop ("=A1") 1, "=A1", Option.none⟩) :=
  ⟨(C5_construction_cases ("=A1")).1.mpr ⟨by decide, by decide⟩,
   (C5_construction_cases ("=A1")).2 ⟨strDrop ("=A1") 1, "=A1", Option.none⟩ rfl⟩

/-- Kind tag of the range node builder under a successful range test. -/
theorem tagOf_rangeToDict (s : String) (h : is_valid_range s = true) :
    tagOf (rangeToDict s) = some ("range") := by
  unfold is_valid_range at h
  unfold rangeToDict
  cases hs : splitTopLevel ':' s.data with
  | nil => rw [hs] at h; simp at h
  | cons a t =>
    cases t with
    | nil => rw [hs] at h; simp at h
    | cons b t2 =>
      cases t2 with
      | nil => rfl
      | cons c t3 => rw [hs] at h; simp at h

/-- Kind tag of the reference node builder under a successful reference
test. -/
theorem tagOf_referenceToDict (s : String) (h : is_valid_reference s = true) :
    tagOf (referenceToDict s) = some ("reference") := by
  unfold is_valid_reference at h
  unfold referenceToDict
  cases hs : parseReferenceParts s with
  | none => rw [hs] at h; simp at h
  | some r => obtain ⟨sheet, letters, row⟩ := r; rfl

/-- C4: classification is first-match-wins in the fixed order function,
range, reference, constant, generic expression, single-character operator:
whenever an earlier recognizer accepts the trimmed string, parse_expression
returns a node of that kind, the later recognizers never being consulted. -/
theorem C4_first_match_order (s : String) :
    (is_function_string (strTrim s) = true →
      tagOf (parse_expression_of_string s) = some ("function")) ∧
    (is_function_string (strTrim s) = false → is_valid_range (strTrim s) = true →
      tagOf (parse_expression_of_string s) = some ("range")) ∧
    (is_function_string (strTrim s) = false → is_valid_range (strTrim s) = false →
      is_valid_reference (strTrim s) = true →
      tagOf (parse_expression_of_string s) = some ("reference")) ∧
    (is_function_string (strTrim s) = false → is_valid_range (strTrim s) = false →
      is_valid_reference (strTrim s) = false → is_valid_constant (strTrim s) = true →
      tagOf (parse_expression_of_string s) = some ("constant")) ∧
    (is_function_string (strTrim s) = false → is_valid_range (strTrim s) = false →
      is_valid_reference (strTrim s) = false → is_valid_constant (strTrim s) = false →
      is_valid_expression (strTrim s) = true →
      tagOf (parse_expression_of_string s) = some ("expression")) ∧
    (is_function_string (strTrim s) = false → is_valid_range (strTrim s) = false →
      is_valid_reference (strTrim s) = false → is_valid_constant (strTrim s) = false →
      is_valid_expression (strTrim s) = false →
      ((operators.any (fun c => (strTrim s).data.contains c)) && (strTrim s).length == 1) = true →
      tagOf (parse_expression_of_string s) = some ("operator")) := by
  unfold parse_expression_of_string
  refine ⟨?_, ?_, ?_, ?_, ?_, ?_⟩
  · intro h1
    simp [parseExpressionF, h1, tagOf]
  · intro h1 h2
    simp only [parseExpressionF, h1, h2]
    simp only [Bool.false_eq_true, if_false, if_true]
    exact tagOf_rangeToDict _ h2
  · intro h1 h2 h3
    simp only [parseExpressionF, h1, h2, h3]
    simp only [Bool.false_eq_true, if_false, if_true]
    exact tagOf_referenceToDict _ h3
  · intro h1 h2 h3 h4
    simp [parseExpressionF, h1, h2, h3, h4, constantToDict, tagOf]
  · intro h1 h2 h3 h4 h5
    simp [parseExpressionF, h1, h2, h3, h4, h5, tagOf]
  · intro h1 h2 h3 h4 h5 h6
    simp only [parseExpressionF, h1, h2, h3, h4, h5, h6]
    simp [tagOf]

/-- C4 witness: the dispatch theorem applied at one concrete string per
recognizer, discharging the priority hypotheses there. -/
theorem C4_first_match_order_witness :
    tagOf (parse_expression_of_string ("SUM(A1)")) = some ("function") ∧
    tagOf (parse_expression_of_string ("A1:B2")) = some ("range") ∧
    tagOf (parse_expression_of_string ("A1")) = some ("reference") ∧
    tagOf (parse_expression_of_string ("42")) = some ("constant") ∧
    tagOf (parse_expression_of_string ("A1 + B2")) = some ("expression") ∧
    tagOf (parse_expression_of_string ("+")) = some ("operator") :=
  ⟨(C4_first_match_order ("SUM(A1)")).1 (by decide),
   (C4_first_match_order ("A1:B2")).2.1 (by decide) (by decide),
   (C4_first_match_order ("A1")).2.2.1 (by decide) (by decide) (by decide),
   (C4_first_match_order ("42")).2.2.2.1 (by decide) (by decide) (by decide) (by decide),
   (C4_first_match_order ("A1 + B2")).2.2.2.2.1 (by decide) (by decide) (by decide) (by decide)
     (by decide),
   (C4_first_match_order ("+")).2.2.2.2.2 (by decide) (by decide) (by decide) (by decide)
     (by decide) (by decide)⟩

/-- C7: when the trimmed string matches none of the six classification
rules, parse_expression returns no node, silently, rather than an error. -/
theorem C7_unmatched_silent_none (s : String)
    (h1 : is_function_string (strTrim s) = false)
    (h2 : is_valid_range (strTrim s) = false)
    (h3 : is_valid_reference (strTrim s) = false)
    (h4 : is_valid_constant (strTrim s) = false)
    (h5 : is_valid_expression (strTrim s) = false)
    (h6 : ((operators.any (fun c => (strTrim s).data.contains c)) && (strTrim s).length == 1) = false) :
    parse_expression_of_string s = PVal.none := by
  unfold parse_expression_of_string
  simp only [parseExpressionF, h1, h2, h3, h4, h5, h6]
  simp

/-- C7 witness: the silent fall-through theorem applied at a concrete
unclassifiable string, discharging all six hypotheses there. -/
theorem C7_unmatched_silent_none_witness :
    parse_expression_of_string ("?") = PVal.none :=
  C7_unmatched_silent_none ("?") (by decide) (by decide) (by decide) (by decide)
    (by decide) (by decide)

/-- C8: json_to_string dispatches on the kind tag alone (the cached string
is a fresh universally quantified variable absent from every right hand
side): FunctionCall renders as the name with comma-space-joined arguments,
Expression always re-wraps its space-joined parts in exactly one explicit
parenthesis pair, Reference renders as column letters plus row with an
optional quoted sheet prefix, Range as start colon end, Operator as its
symbol, and Constant as the string form of its literal. -/
theorem C8_json_to_string_shapes (fuel : Nat) (cached nm : String) (args parts : List PVal)
    (sheet : PVal) (colL : String) (row colN : Int) (sym : String) (cv stv env : PVal) :
    (json_to_stringF (fuel + 1)
        (PVal.dict [("function", PVal.str cached),
          ("components", PVal.dict [("name", PVal.str nm), ("arguments", PVal.list args)])])
      = (optMapStr (fun a => json_to_stringF fuel a) args).map
          (fun ss => nm ++ "(" ++ joinSep (", ") ss ++ ")")) ∧
    (json_to_stringF (fuel + 1)
        (PVal.dict [("expression", PVal.str cached), ("components", PVal.list parts)])
      = (optMapStr (fun a => json_to_stringF fuel a) parts).map
          (fun ss => "(" ++ joinSep (" ") ss ++ ")")) ∧
    (json_to_stringF (fuel + 1) (refNodeRaw cached sheet colL row colN)
      = some (refRender sheet colL row)) ∧
    (json_to_stringF (fuel + 1)
        (PVal.dict [("range", PVal.str cached),
          ("components", PVal.dict [("start", stv), ("end", env)])])
      = some (pyStr stv ++ ":" ++ pyStr env)) ∧
    (json_to_stringF (fuel + 1) (PVal.dict [("operator", PVal.str sym)]) = some sym) ∧
    (json_to_stringF (fuel + 1) (PVal.dict [("constant", cv)]) = some (pyStr cv)) := by
  exact ⟨rfl, rfl, rfl, rfl, rfl, rfl⟩

/-- Count lookup after an increment: the incremented key gains one, every
other key is unchanged. -/
theorem lookupCount_incCount (kc : List (String × Nat)) (k0 k : String) :
    lookupCount (incCount kc k0) k = lookupCount kc k + (if k0 == k then 1 else 0) := by
  induction kc with
  | nil =>
    by_cases h : k0 = k
    · subst h; simp [incCount, lookupCount]
    · simp [incCount, lookupCount, h]
  | cons e rest ih =>
    obtain ⟨k1, n⟩ := e
    by_cases h10 : k1 = k0
    · subst h10
      by_cases h1k : k1 = k
      · subst h1k; simp [incCount, lookupCount]
      · simp [incCount, lookupCount, h1k]
    · by_cases h1k : k1 = k
      · subst h1k
        have hk0 : ¬(k0 = k1) := fun he => h10 he.symm
        simp [incCount, lookupCount, h10, hk0]
      · simp [incCount, lookupCount, h10, h1k, ih]

/-- Relation between the accumulator-threading counter of the source and the
direct occurrence count: for every fuel, the count recorded for a key equals
its incoming count plus, when the key is acceptable, the number of its
occurrences reachable in the traversal. -/
theorem countKeysF_occF (acc : List String) (k : String) :
    ∀ (fuel : Nat) (inp : CKIn) (kc : List (String × Nat)),
    lookupCount (countKeysF acc fuel inp kc) k
      = lookupCount kc k + (if acc.contains k then occF k fuel inp else 0) := by
  intro fuel
  induction fuel with
  | zero => intro inp kc; simp [countKeysF, occF]
  | succ n ih =>
    intro inp kc
    cases inp with
    | entries es =>
      cases es with
      | nil => simp [countKeysF, occF]
      | cons e rest =>
        obtain ⟨k0, v⟩ := e
        simp only [countKeysF, occF]
        rw [ih]
        by_cases hk : k ∈ acc
        · have hkb : acc.contains k = true := by simpa using hk
          by_cases hk0 : k0 = k
          · subst hk0
            cases v <;>
              simp [ih, hk, hkb, lookupCount_incCount] <;> omega
          · by_cases hc0 : k0 ∈ acc
            · have hc0b : acc.contains k0 = true := by simpa using hc0
              cases v <;>
                simp [ih, hk, hc0, hkb, hc0b, lookupCount_incCount, hk0] <;> omega
            · have hc0b : acc.contains k0 = false := by simpa using hc0
              cases v <;> simp [ih, hk, hc0, hkb, hc0b, hk0] <;> omega
        · have hkb : acc.contains k = false := by simpa using hk
          by_cases hc0 : k0 ∈ acc
          · have hc0b : acc.contains k0 = true := by simpa using hc0
            have hk0 : ¬(k0 = k) := fun he => hk (he ▸ hc0)
            cases v <;> simp [ih, hk, hc0, hkb, hc0b, lookupCount_incCount, hk0] <;> omega
          · have hc0b : acc.contains k0 = false := by simpa using hc0
            cases v <;> simp [ih, hk, hc0, hkb, hc0b] <;> omega
    | elems xs =>
      cases xs with
      | nil => simp [countKeysF, occF]
      | cons x rest =>
        simp only [countKeysF, occF]
        rw [ih]
        by_cases hk : k ∈ acc
        · have hkb : acc.contains k = true := by simpa using hk
          cases x <;> simp [ih, hk, hkb] <;> omega
        · have hkb : acc.contains k = false := by simpa using hk
          cases x <;> simp [ih, hk, hkb] <;> omega

/-- C10: get_all_keys_with_counts is a pure function of its input tree and,
for every traversal fuel, reports for each acceptable kind tag exactly the
number of its occurrences among the nested dictionary entries reachable by
the traversal (dictionary values and dictionary elements of list values);
when a single non-empty label is requested, that label is counted the same
way and every other key reports zero. -/
theorem C10_key_counts (fuel : Nat) (es : List (String × PVal)) (k l : String) :
    (k ∈ acceptableKeys →
      lookupCount (get_all_keys_with_counts fuel (PVal.dict es) Option.none) k
        = occF k fuel (CKIn.entries es)) ∧
    (l ≠ "" →
      lookupCount (get_all_keys_with_counts fuel (PVal.dict es) (some l)) l
        = occF l fuel (CKIn.entries es)) ∧
    (l ≠ "" → k ≠ l →
      lookupCount (get_all_keys_with_counts fuel (PVal.dict es) (some l)) k = 0) := by
  refine ⟨?_, ?_, ?_⟩
  · intro hk
    unfold get_all_keys_with_counts
    rw [countKeysF_occF]
    have hkb : acceptableKeys.contains k = true := by simpa using hk
    simp [labelKeys, lookupCount, hk, hkb]
  · intro hl
    unfold get_all_keys_with_counts
    have : labelKeys (some l) = [l] := by simp [labelKeys, hl]
    rw [this, countKeysF_occF]
    simp [lookupCount]
  · intro hl hkl
    unfold get_all_keys_with_counts
    have : labelKeys (some l) = [l] := by simp [labelKeys, hl]
    rw [this, countKeysF_occF]
    simp [lookupCount, hkl]

/-- C10 witness: the counting theorem applied at a concrete fuel, tree and
labels, discharging the membership and label hypotheses there. -/
theorem C10_key_counts_witness :
    (lookupCount (get_all_keys_with_counts 3
        (PVal.dict [("reference", PVal.none)]) Option.none) ("reference")
      = occF ("reference") 3 (CKIn.entries [("reference", PVal.none)])) ∧
    (lookupCount (get_all_keys_with_counts 3
        (PVal.dict [("reference", PVal.none)]) (some ("operator"))) ("operator")
      = occF ("operator") 3 (CKIn.entries [("reference", PVal.none)])) ∧
    (lookupCount (get_all_keys_with_counts 3
        (PVal.dict [("reference", PVal.none)]) (some ("operator"))) ("reference") = 0) :=
  ⟨(C10_key_counts 3 [("reference", PVal.none)] ("reference") ("operator")).1 (by decide),
   (C10_key_counts 3 [("reference", PVal.none)] ("reference") ("operator")).2.1 (by decide),
   (C10_key_counts 3 [("reference", PVal.none)] ("reference") ("operator")).2.2
     (by decide) (by decide)⟩
